import Mathlib

/-!
Verification of the concurrent network probing engine
(`exercises/05-health-checker/main.go` — HTTP health checker and port
scanner — and `exercises/04-icmp-ping/main.go`).

The Go code is shallowly embedded: pure computation is translated
directly; network I/O is abstracted by oracles (for example, a predicate
saying which ports accept a TCP connection); the goroutine/channel
structure of the worker pool is modelled by quantifying over every
possible distribution of jobs to workers and every interleaving of the
published results; the RWMutex-guarded status map is modelled by a
small-step transition system whose writer and reader update and read the
entry one field at a time, so that torn reads are expressible.
-/

namespace NetProbe

/-! ### Port scanner (`scanPorts`, `scanPort` in main.go)

`net.DialTimeout("tcp", host:port, timeout)` is abstracted by an oracle
`net : Int → Bool` telling, for the fixed host and timeout of one scan,
which ports accept a connection. -/

/-- Embeds Go `ScanResult{Port int; Open bool; Banner string}`. -/
structure ScanResult where
  Port : Int
  Open : Bool
  Banner : String
deriving DecidableEq, Repr

/-- Embeds Go `scanPort`: dial the port; on success return `Open: true`,
on error `Open: false`; `Banner` is never set (zero value `""`). -/
def scanPort (net : Int → Bool) (port : Int) : ScanResult :=
  if net port then { Port := port, Open := true, Banner := "" }
  else { Port := port, Open := false, Banner := "" }

/-- The job list produced by `for port := startPort; port <= endPort; port++`:
the ports from `startPort` to `endPort` inclusive, empty when
`startPort > endPort`. -/
def portRange (startPort endPort : Int) : List Int :=
  (List.range (endPort + 1 - startPort).toNat).map (fun i => startPort + Int.ofNat i)

/-- The jobs consumed by worker `w` under a channel-delivery assignment
`asg` (the `i`-th job goes to worker `asg[i]`), in channel (FIFO) order. -/
def workerJobs (jobs : List Int) (asg : List Nat) (w : Nat) : List Int :=
  ((jobs.zip asg).filter (fun p => p.2 == w)).map Prod.fst

/-- What worker `w` publishes on the results channel: it scans each job
from its stream and sends the result only `if result.Open`. -/
def workerResults (net : Int → Bool) (jobs : List Int) (asg : List Nat) (w : Nat) :
    List ScanResult :=
  ((workerJobs jobs asg w).map (scanPort net)).filter (fun r => r.Open)

/-- All dial attempts made across the pool of `W` workers. -/
def allAttempts (jobs : List Int) (asg : List Nat) (W : Nat) : List Int :=
  (List.range W).flatMap (workerJobs jobs asg)

/-- All results published on the results channel across the pool. -/
def allResults (net : Int → Bool) (jobs : List Int) (asg : List Nat) (W : Nat) :
    List ScanResult :=
  (List.range W).flatMap (workerResults net jobs asg)

/-- A channel-delivery assignment is valid when every sent job is received
by exactly one of the `W` workers: `asg` pairs each job with the index of
the worker that receives it. -/
def ValidAssignment (W : Nat) (jobs : List Int) (asg : List Nat) : Prop :=
  asg.length = jobs.length ∧ ∀ a ∈ asg, a < W

/-! ### Health checker data model (main.go) -/

/-- Embeds the Go `Endpoint` struct; `time.Duration` fields are
nanosecond counts (`int64`), kept as `Int`. -/
structure Endpoint where
  Name : String
  URL : String
  Interval : Int
  Timeout : Int
  ExpectedStatus : Int
deriving DecidableEq, Repr

/-- Embeds the Go `HealthStatus` struct (the `Endpoint *Endpoint` back
reference is stored by value; `LastCheck time.Time` is an abstract
instant, kept as `Int`). -/
structure HealthStatus where
  endpoint : Endpoint
  Healthy : Bool
  Latency : Int
  LastCheck : Int
  Error : String
deriving DecidableEq, Repr

/-- The `statuses map[string]*HealthStatus` field of `HealthChecker`,
as a lookup function. -/
def StatusMap : Type := String → Option HealthStatus

/-- Embeds `updateStatus`: replaces the entry under `ep.Name` wholesale
with a freshly built `HealthStatus` (`time.Now()` is the `now`
parameter). -/
def updateStatus (sts : StatusMap) (ep : Endpoint) (healthy : Bool) (latency : Int)
    (errMsg : String) (now : Int) : StatusMap :=
  fun name =>
    if name = ep.Name then
      some { endpoint := ep, Healthy := healthy, Latency := latency,
             LastCheck := now, Error := errMsg }
    else sts name

/-- The outcome of one HTTP attempt, abstracting the I/O performed by
`http.NewRequestWithContext` and `client.Do`:
`reqError` = request construction failed (before any send);
`transportError` = `client.Do` returned an error (timeout, refused, DNS);
`response` = a response arrived with the given status code. -/
inductive ProbeResult where
  | reqError (msg : String)
  | transportError (msg : String)
  | response (statusCode : Int)
deriving DecidableEq, Repr

/-- Embeds `checkEndpoint`. `latency` is the wall-clock time measured by
`time.Since(start)` around `client.Do`; on the `reqError` path the Go
code passes a literal `0` latency. On a response, `healthy` is the
status-code comparison and a mismatch message cites both codes. -/
def checkEndpoint (sts : StatusMap) (ep : Endpoint) (pr : ProbeResult)
    (latency now : Int) : StatusMap :=
  match pr with
  | .reqError msg => updateStatus sts ep false 0 msg now
  | .transportError msg => updateStatus sts ep false latency msg now
  | .response code =>
      let healthy : Bool := code == ep.ExpectedStatus
      let errMsg : String :=
        if healthy then ""
        else "status " ++ toString code ++ " (expected " ++ toString ep.ExpectedStatus ++ ")"
      updateStatus sts ep healthy latency errMsg now

/-- One rendered line of `printStatus`: a target not yet in the map is
shown as the `pending` ("checking...") line, otherwise as a `report`
line carrying the ✅/❌ health flag, latency and error text. -/
inductive StatusLine where
  | pending (name : String)
  | report (name : String) (healthy : Bool) (latency : Int) (err : String)
deriving DecidableEq, Repr

/-- The line `printStatus` prints for one endpoint (the body of its
`for _, ep := range hc.endpoints` loop). -/
def renderLine (sts : StatusMap) (ep : Endpoint) : StatusLine :=
  match sts ep.Name with
  | none => .pending ep.Name
  | some st => .report ep.Name st.Healthy st.Latency st.Error

/-- Embeds `printStatus`: renders one line per configured endpoint, in
the order of the `endpoints` slice. -/
def printStatus (eps : List Endpoint) (sts : StatusMap) : List StatusLine :=
  eps.map (renderLine sts)

/-- The name of a rendered line. -/
def StatusLine.name : StatusLine → String
  | .pending n => n
  | .report n _ _ _ => n

/-! ### Config loading (`loadEndpoints`) -/

/-- The defaulting loop body of `loadEndpoints`: each zero-valued field
is replaced (`Interval` ← 5s, `Timeout` ← 3s, `ExpectedStatus` ← 200);
nothing else changes. Durations are nanoseconds. -/
def applyDefaults (ep : Endpoint) : Endpoint :=
  { ep with
    Interval := if ep.Interval = 0 then 5000000000 else ep.Interval,
    Timeout := if ep.Timeout = 0 then 3000000000 else ep.Timeout,
    ExpectedStatus := if ep.ExpectedStatus = 0 then 200 else ep.ExpectedStatus }

/-- Embeds `loadEndpoints`. `readResult` is the outcome of
`os.ReadFile` and `parse` the behaviour of `json.Unmarshal` on the file
contents; both are abstracted as oracles. On success the defaulting loop
runs over every entry; no other validation is performed. -/
def loadEndpoints (readResult : Except String String)
    (parse : String → Except String (List Endpoint)) : Except String (List Endpoint) :=
  match readResult with
  | .error e => .error e
  | .ok data =>
      match parse data with
      | .error e => .error e
      | .ok eps => .ok (eps.map applyDefaults)

/-! ### Scheduler loop (`monitorEndpoint`) -/

/-- One iteration of the `select` in `monitorEndpoint`: either the
context is cancelled, or the ticker fires and the probe completes with
the given result, measured latency and completion time. -/
inductive SchedEvent where
  | cancel
  | tick (pr : ProbeResult) (latency : Int) (now : Int)
deriving DecidableEq, Repr

/-- Embeds the `for { select { ... } }` loop of `monitorEndpoint` over a
finite prefix of its event stream: returns the status map when the
events run out together with whether the loop has returned
(`true` exactly when a cancellation was observed). -/
def monitorRun (ep : Endpoint) (sts : StatusMap) : List SchedEvent → StatusMap × Bool
  | [] => (sts, false)
  | .cancel :: _ => (sts, true)
  | .tick pr lat now :: rest => monitorRun ep (checkEndpoint sts ep pr lat now) rest

/-- Embeds `monitorEndpoint`: one immediate initial check (no initial
delay), then the ticker loop. -/
def monitorEndpoint (ep : Endpoint) (sts : StatusMap) (pr0 : ProbeResult)
    (lat0 now0 : Int) (events : List SchedEvent) : StatusMap × Bool :=
  monitorRun ep (checkEndpoint sts ep pr0 lat0 now0) events

/-- The effect of one scheduler event on the status map (cancellation
writes nothing). -/
def schedStep (ep : Endpoint) (sts : StatusMap) : SchedEvent → StatusMap
  | .cancel => sts
  | .tick pr lat now => checkEndpoint sts ep pr lat now

/-! ### HTTP client construction (`createClient`) -/

/-- The slice of Go's `http.Client` relevant here: its overall
`Timeout` (nanoseconds). Transport/keep-alive tuning and optional
interface binding do not affect the timeout and are omitted. -/
structure Client where
  Timeout : Int
deriving DecidableEq, Repr

/-- Embeds `createClient`: whatever the interface argument, the returned
client carries the fixed 10-second overall timeout. -/
def createClient (interfaceName : String) : Client :=
  { Timeout := 10000000000 }

/-- Models the documented `net/http` semantics of the two deadlines a
request in `checkEndpoint` runs under: the request context built by
`context.WithTimeout(ctx, ep.Timeout)` and the client-wide
`client.Timeout`. A server reply taking `respTime` is delivered iff it
beats both. -/
def requestCompletes (client : Client) (ctxTimeout respTime : Int) : Bool :=
  respTime ≤ ctxTimeout && respTime ≤ client.Timeout

/-- The per-attempt completion predicate of `checkEndpoint` run with the
client built by `createClient`. -/
def checkEndpointCompletes (interfaceName : String) (ep : Endpoint) (respTime : Int) : Bool :=
  requestCompletes (createClient interfaceName) ep.Timeout respTime

/-! ### ICMP ping (`exercises/04-icmp-ping/main.go`) -/

/-- The I/O outcomes one call of `ping` can encounter, abstracted from
the socket: each `Option String` is `some err` when the corresponding
call fails. `elapsed` is the wall-clock time from the `conn.WriteTo`
send to the completion of `conn.ReadFrom`; `replyType` is the ICMP type
of the parsed reply (`ipv4.ICMPTypeEchoReply` is type 0). -/
structure PingAttempt where
  listenErr : Option String
  marshalErr : Option String
  deadlineErr : Option String
  writeErr : Option String
  readErr : Option String
  elapsed : Int
  parseErr : Option String
  replyType : Int
deriving DecidableEq, Repr

/-- Embeds `ping`: the returned pair is `(rtt, error)` mirroring the Go
`(time.Duration, error)` return, with `none` for a nil error. Note that
`rtt := time.Since(start)` is computed only after a successful
`ReadFrom`, and every error path returns a zero duration. -/
def ping (a : PingAttempt) : Int × Option String :=
  match a.listenErr with
  | some e => (0, some ("listen error: " ++ e))
  | none =>
  match a.marshalErr with
  | some e => (0, some ("marshal error: " ++ e))
  | none =>
  match a.deadlineErr with
  | some e => (0, some ("set deadline: " ++ e))
  | none =>
  match a.writeErr with
  | some e => (0, some ("write error: " ++ e))
  | none =>
  match a.readErr with
  | some e => (0, some ("read error: " ++ e))
  | none =>
  match a.parseErr with
  | some e => (0, some ("parse error: " ++ e))
  | none =>
  if a.replyType ≠ 0 then (0, some "unexpected ICMP type")
  else (a.elapsed, none)

/-! ### RWMutex-guarded result store (`updateStatus` vs `printStatus`)

The `sync.RWMutex` discipline of `HealthChecker` is modelled as a
small-step system for one key: a writer thread runs `updateStatus`
(acquire `mu.Lock`, replace the entry, release) and a reader thread runs
the read of `printStatus` (acquire `mu.RLock`, read the entry, release).
To make torn reads expressible at all, the entry update and the entry
read are broken into one step per `HealthStatus` field — finer than the
Go code, which swaps a single pointer. Program counters:
writer `0` idle, `1`–`5` holding the write lock about to write field
1–5, `6` all fields written (still holding), `7` done; reader `0` idle,
`1`–`5` holding the read lock about to read field 1–5, `6` all fields
read (still holding), `7` done. -/

structure StoreState where
  store : HealthStatus
  readers : Nat
  writerHeld : Bool
  wpc : Nat
  rpc : Nat
  obs : HealthStatus
deriving DecidableEq, Repr

/-- Which thread takes a step. -/
inductive Agent where
  | writer
  | reader
deriving DecidableEq, Repr

/-- One interleaved step: the writer installs the new outcome `n` field
by field under `mu.Lock` (which waits for `readers = 0`), the reader
copies the entry field by field under `mu.RLock` (which waits for the
writer to release). -/
inductive StoreStep (n : HealthStatus) : Agent → StoreState → StoreState → Prop where
  | wAcquire (s : StoreState) (h1 : s.wpc = 0) (h2 : s.readers = 0)
      (h3 : s.writerHeld = false) :
      StoreStep n .writer s { s with writerHeld := true, wpc := 1 }
  | wWrite1 (s : StoreState) (h : s.wpc = 1) :
      StoreStep n .writer s { s with store := { s.store with endpoint := n.endpoint }, wpc := 2 }
  | wWrite2 (s : StoreState) (h : s.wpc = 2) :
      StoreStep n .writer s { s with store := { s.store with Healthy := n.Healthy }, wpc := 3 }
  | wWrite3 (s : StoreState) (h : s.wpc = 3) :
      StoreStep n .writer s { s with store := { s.store with Latency := n.Latency }, wpc := 4 }
  | wWrite4 (s : StoreState) (h : s.wpc = 4) :
      StoreStep n .writer s { s with store := { s.store with LastCheck := n.LastCheck }, wpc := 5 }
  | wWrite5 (s : StoreState) (h : s.wpc = 5) :
      StoreStep n .writer s { s with store := { s.store with Error := n.Error }, wpc := 6 }
  | wRelease (s : StoreState) (h : s.wpc = 6) :
      StoreStep n .writer s { s with writerHeld := false, wpc := 7 }
  | rAcquire (s : StoreState) (h1 : s.rpc = 0) (h2 : s.writerHeld = false) :
      StoreStep n .reader s { s with readers := s.readers + 1, rpc := 1 }
  | rRead1 (s : StoreState) (h : s.rpc = 1) :
      StoreStep n .reader s { s with obs := { s.obs with endpoint := s.store.endpoint }, rpc := 2 }
  | rRead2 (s : StoreState) (h : s.rpc = 2) :
      StoreStep n .reader s { s with obs := { s.obs with Healthy := s.store.Healthy }, rpc := 3 }
  | rRead3 (s : StoreState) (h : s.rpc = 3) :
      StoreStep n .reader s { s with obs := { s.obs with Latency := s.store.Latency }, rpc := 4 }
  | rRead4 (s : StoreState) (h : s.rpc = 4) :
      StoreStep n .reader s { s with obs := { s.obs with LastCheck := s.store.LastCheck }, rpc := 5 }
  | rRead5 (s : StoreState) (h : s.rpc = 5) :
      StoreStep n .reader s { s with obs := { s.obs with Error := s.store.Error }, rpc := 6 }
  | rRelease (s : StoreState) (h : s.rpc = 6) :
      StoreStep n .reader s { s with readers := s.readers - 1, rpc := 7 }

/-- Initial state: the entry holds the previous outcome `o`, no lock is
held, neither thread has started, the reader's buffer is zeroed at `o`
(its initial contents are irrelevant: every field is overwritten before
the reader finishes). -/
def storeInit (o : HealthStatus) : StoreState :=
  { store := o, readers := 0, writerHeld := false, wpc := 0, rpc := 0, obs := o }

/-- Reachability under any interleaving of the two threads. -/
def StoreReachable (o n : HealthStatus) (s : StoreState) : Prop :=
  Relation.ReflTransGen (fun s1 s2 => ∃ a, StoreStep n a s1 s2) (storeInit o) s

/-- The store contents as a function of how far the writer has got. -/
def writerView (o n : HealthStatus) (wpc : Nat) : HealthStatus :=
  if wpc ≤ 1 then o
  else if wpc = 2 then { o with endpoint := n.endpoint }
  else if wpc = 3 then { o with endpoint := n.endpoint, Healthy := n.Healthy }
  else if wpc = 4 then
    { o with endpoint := n.endpoint, Healthy := n.Healthy, Latency := n.Latency }
  else if wpc = 5 then { n with Error := o.Error }
  else n

/-- The inductive invariant: the lock state mirrors the program
counters, the two critical sections are mutually exclusive, the store
follows the writer's progress, the reader's buffer follows its own
progress, and a finished reader holds a complete outcome. -/
def StoreInv (o n : HealthStatus) (s : StoreState) : Prop :=
  (s.writerHeld = true ↔ (1 ≤ s.wpc ∧ s.wpc ≤ 6)) ∧
  (s.readers = if 1 ≤ s.rpc ∧ s.rpc ≤ 6 then 1 else 0) ∧
  (¬(1 ≤ s.wpc ∧ s.wpc ≤ 6) ∨ ¬(1 ≤ s.rpc ∧ s.rpc ≤ 6)) ∧
  (s.store = writerView o n s.wpc) ∧
  (2 ≤ s.rpc → s.rpc ≤ 6 → s.obs.endpoint = s.store.endpoint) ∧
  (3 ≤ s.rpc → s.rpc ≤ 6 → s.obs.Healthy = s.store.Healthy) ∧
  (4 ≤ s.rpc → s.rpc ≤ 6 → s.obs.Latency = s.store.Latency) ∧
  (5 ≤ s.rpc → s.rpc ≤ 6 → s.obs.LastCheck = s.store.LastCheck) ∧
  (s.rpc = 6 → s.obs.Error = s.store.Error) ∧
  (s.rpc = 7 → (s.obs = o ∨ s.obs = n))

theorem workerJobs_nil (asg : List Nat) (w : Nat) : workerJobs [] asg w = [] := by
  simp [workerJobs]

theorem workerJobs_cons (j : Int) (js : List Int) (a : Nat) (as : List Nat) (w : Nat) :
    workerJobs (j :: js) (a :: as) w =
      if a = w then j :: workerJobs js as w else workerJobs js as w := by
  by_cases h : a = w <;> simp [workerJobs, List.filter_cons, h]

theorem flatMap_congr_mem {α β : Type} {l : List α} {f g : α → List β}
    (h : ∀ x ∈ l, f x = g x) : l.flatMap f = l.flatMap g := by
  induction l with
  | nil => rfl
  | cons b t ih =>
    simp only [List.flatMap_cons]
    rw [h b (List.mem_cons_self b t), ih (fun x hx => h x (List.mem_cons_of_mem b hx))]

theorem flatMap_cons_at_perm {l : List Nat} {a : Nat} (hnd : l.Nodup) (ha : a ∈ l)
    (f : Nat → List Int) (j : Int) :
    (l.flatMap (fun w => if a = w then j :: f w else f w)).Perm (j :: l.flatMap f) := by
  induction l with
  | nil => cases ha
  | cons b t ih =>
    rcases List.mem_cons.mp ha with hab | hat
    · subst hab
      have hnotin : a ∉ t := (List.nodup_cons.mp hnd).1
      have ht : t.flatMap (fun w => if a = w then j :: f w else f w) = t.flatMap f := by
        refine flatMap_congr_mem (fun x hx => ?_)
        have : a ≠ x := fun h => hnotin (h ▸ hx)
        simp [this]
      simp only [List.flatMap_cons, if_pos rfl, ht]
      exact List.Perm.refl _
    · have hab : a ≠ b := by
        intro h
        exact (List.nodup_cons.mp hnd).1 (h ▸ hat)
      have ihp := ih (List.nodup_cons.mp hnd).2 hat
      simp only [List.flatMap_cons, if_neg hab]
      refine List.Perm.trans (List.Perm.append_left (f b) ihp) ?_
      exact List.perm_middle

/-- Every valid channel delivery hands the whole job list out across the
workers: the multiset of attempted ports is exactly the job list. -/
theorem allAttempts_perm (W : Nat) :
    ∀ (jobs : List Int) (asg : List Nat), asg.length = jobs.length →
      (∀ a ∈ asg, a < W) → (allAttempts jobs asg W).Perm jobs := by
  intro jobs
  induction jobs with
  | nil =>
    intro asg hlen _
    have : asg = [] := List.eq_nil_of_length_eq_zero hlen
    subst this
    have : allAttempts [] [] W = [] := by
      simp [allAttempts, workerJobs_nil, List.flatMap]
    rw [this]
  | cons j js ih =>
    intro asg hlen hlt
    match asg with
    | [] => simp at hlen
    | a :: as =>
      have ha : a < W := hlt a (List.mem_cons_self a as)
      have has : ∀ x ∈ as, x < W := fun x hx => hlt x (List.mem_cons_of_mem a hx)
      have hlen' : as.length = js.length := by simpa using hlen
      have hmem : a ∈ List.range W := List.mem_range.mpr ha
      have hstep :
          allAttempts (j :: js) (a :: as) W =
            (List.range W).flatMap
              (fun w => if a = w then j :: workerJobs js as w else workerJobs js as w) := by
        unfold allAttempts
        exact flatMap_congr_mem (fun w _ => workerJobs_cons j js a as w)
      rw [hstep]
      refine List.Perm.trans (flatMap_cons_at_perm (List.nodup_range W) hmem _ j) ?_
      exact List.Perm.cons j (ih as hlen' has)

theorem map_flatMap_eq {α β γ : Type} (l : List α) (f : α → List β) (g : β → γ) :
    (l.flatMap f).map g = l.flatMap (fun x => (f x).map g) := by
  induction l with
  | nil => rfl
  | cons b t ih => simp [List.flatMap_cons, ih]

theorem filter_flatMap_eq {α β : Type} (l : List α) (f : α → List β) (p : β → Bool) :
    (l.flatMap f).filter p = l.flatMap (fun x => (f x).filter p) := by
  induction l with
  | nil => rfl
  | cons b t ih => simp [List.flatMap_cons, List.filter_append, ih]

/-- The pool's published results are exactly the open-port scan results of
all its attempts. -/
theorem allResults_eq (net : Int → Bool) (jobs : List Int) (asg : List Nat) (W : Nat) :
    allResults net jobs asg W =
      ((allAttempts jobs asg W).map (scanPort net)).filter (fun r => r.Open) := by
  unfold allResults allAttempts workerResults
  rw [map_flatMap_eq, filter_flatMap_eq]

theorem portRange_nodup (s e : Int) : (portRange s e).Nodup := by
  have h : Function.Injective (fun i : Nat => s + Int.ofNat i) := by
    intro i j hij
    have h2 : s + Int.ofNat i = s + Int.ofNat j := hij
    have h3 : Int.ofNat i = Int.ofNat j := by omega
    exact Int.ofNat.inj h3
  exact (List.nodup_range _).map h

theorem allResults_perm_filter (net : Int → Bool) (jobs : List Int) (asg : List Nat)
    (W : Nat) (hlen : asg.length = jobs.length) (hlt : ∀ a ∈ asg, a < W) :
    (allResults net jobs asg W).Perm ((jobs.map (scanPort net)).filter (fun r => r.Open)) := by
  rw [allResults_eq]
  exact ((allAttempts_perm W jobs asg hlen hlt).map (scanPort net)).filter _

theorem healthStatus_ext (a b : HealthStatus) (h1 : a.endpoint = b.endpoint)
    (h2 : a.Healthy = b.Healthy) (h3 : a.Latency = b.Latency)
    (h4 : a.LastCheck = b.LastCheck) (h5 : a.Error = b.Error) : a = b := by
  cases a
  cases b
  simp_all

theorem storeInv_init (o n : HealthStatus) : StoreInv o n (storeInit o) := by
  refine ⟨?_, ?_, ?_, ?_, ?_, ?_, ?_, ?_, ?_, ?_⟩ <;>
    simp [storeInit, writerView]

theorem storeInv_step (o n : HealthStatus) (a : Agent) (s s' : StoreState)
    (hstep : StoreStep n a s s') (hinv : StoreInv o n s) : StoreInv o n s' := by
  obtain ⟨h1, h2, h3, h4, h5, h6, h7, h8, h9, h10⟩ := hinv
  cases hstep with
  | wAcquire _ ha1 ha2 ha3 =>
    refine ⟨by simp, by simpa using h2, ?_, ?_, h5, h6, h7, h8, h9, h10⟩
    · right
      intro hR
      rw [h2, if_pos hR] at ha2
      exact absurd ha2 one_ne_zero
    · show s.store = writerView o n 1
      rw [h4, ha1]
      simp [writerView]
  | wWrite1 _ hb =>
    have hnR : ¬(1 ≤ s.rpc ∧ s.rpc ≤ 6) :=
      h3.resolve_left (fun h => h ⟨by omega, by omega⟩)
    have hheld : s.writerHeld = true := h1.mpr ⟨by omega, by omega⟩
    refine ⟨by simp [hheld], by simpa using h2, Or.inr hnR, ?_, ?_, ?_, ?_, ?_, ?_, h10⟩
    · show { s.store with endpoint := n.endpoint } = writerView o n 2
      rw [h4, hb]
      simp [writerView]
    · intro hr2 hr6
      have ha2 : 2 ≤ s.rpc := hr2
      have hb2 : s.rpc ≤ 6 := hr6
      exact absurd ⟨by omega, hb2⟩ hnR
    · intro hr3 hr6
      have ha2 : 3 ≤ s.rpc := hr3
      have hb2 : s.rpc ≤ 6 := hr6
      exact absurd ⟨by omega, hb2⟩ hnR
    · intro hr4 hr6
      have ha2 : 4 ≤ s.rpc := hr4
      have hb2 : s.rpc ≤ 6 := hr6
      exact absurd ⟨by omega, hb2⟩ hnR
    · intro hr5 hr6
      have ha2 : 5 ≤ s.rpc := hr5
      have hb2 : s.rpc ≤ 6 := hr6
      exact absurd ⟨by omega, hb2⟩ hnR
    · intro hr6
      have ha2 : s.rpc = 6 := hr6
      exact absurd ⟨by omega, by omega⟩ hnR
  | wWrite2 _ hb =>
    have hnR : ¬(1 ≤ s.rpc ∧ s.rpc ≤ 6) :=
      h3.resolve_left (fun h => h ⟨by omega, by omega⟩)
    have hheld : s.writerHeld = true := h1.mpr ⟨by omega, by omega⟩
    refine ⟨by simp [hheld], by simpa using h2, Or.inr hnR, ?_, ?_, ?_, ?_, ?_, ?_, h10⟩
    · show { s.store with Healthy := n.Healthy } = writerView o n 3
      rw [h4, hb]
      simp [writerView]
    · intro hr2 hr6
      have ha2 : 2 ≤ s.rpc := hr2
      have hb2 : s.rpc ≤ 6 := hr6
      exact absurd ⟨by omega, hb2⟩ hnR
    · intro hr3 hr6
      have ha2 : 3 ≤ s.rpc := hr3
      have hb2 : s.rpc ≤ 6 := hr6
      exact absurd ⟨by omega, hb2⟩ hnR
    · intro hr4 hr6
      have ha2 : 4 ≤ s.rpc := hr4
      have hb2 : s.rpc ≤ 6 := hr6
      exact absurd ⟨by omega, hb2⟩ hnR
    · intro hr5 hr6
      have ha2 : 5 ≤ s.rpc := hr5
      have hb2 : s.rpc ≤ 6 := hr6
      exact absurd ⟨by omega, hb2⟩ hnR
    · intro hr6
      have ha2 : s.rpc = 6 := hr6
      exact absurd ⟨by omega, by omega⟩ hnR
  | wWrite3 _ hb =>
    have hnR : ¬(1 ≤ s.rpc ∧ s.rpc ≤ 6) :=
      h3.resolve_left (fun h => h ⟨by omega, by omega⟩)
    have hheld : s.writerHeld = true := h1.mpr ⟨by omega, by omega⟩
    refine ⟨by simp [hheld], by simpa using h2, Or.inr hnR, ?_, ?_, ?_, ?_, ?_, ?_, h10⟩
    · show { s.store with Latency := n.Latency } = writerView o n 4
      rw [h4, hb]
      simp [writerView]
    · intro hr2 hr6
      have ha2 : 2 ≤ s.rpc := hr2
      have hb2 : s.rpc ≤ 6 := hr6
      exact absurd ⟨by omega, hb2⟩ hnR
    · intro hr3 hr6
      have ha2 : 3 ≤ s.rpc := hr3
      have hb2 : s.rpc ≤ 6 := hr6
      exact absurd ⟨by omega, hb2⟩ hnR
    · intro hr4 hr6
      have ha2 : 4 ≤ s.rpc := hr4
      have hb2 : s.rpc ≤ 6 := hr6
      exact absurd ⟨by omega, hb2⟩ hnR
    · intro hr5 hr6
      have ha2 : 5 ≤ s.rpc := hr5
      have hb2 : s.rpc ≤ 6 := hr6
      exact absurd ⟨by omega, hb2⟩ hnR
    · intro hr6
      have ha2 : s.rpc = 6 := hr6
      exact absurd ⟨by omega, by omega⟩ hnR
  | wWrite4 _ hb =>
    have hnR : ¬(1 ≤ s.rpc ∧ s.rpc ≤ 6) :=
      h3.resolve_left (fun h => h ⟨by omega, by omega⟩)
    have hheld : s.writerHeld = true := h1.mpr ⟨by omega, by omega⟩
    refine ⟨by simp [hheld], by simpa using h2, Or.inr hnR, ?_, ?_, ?_, ?_, ?_, ?_, h10⟩
    · show { s.store with LastCheck := n.LastCheck } = writerView o n 5
      rw [h4, hb]
      simp [writerView]
    · intro hr2 hr6
      have ha2 : 2 ≤ s.rpc := hr2
      have hb2 : s.rpc ≤ 6 := hr6
      exact absurd ⟨by omega, hb2⟩ hnR
    · intro hr3 hr6
      have ha2 : 3 ≤ s.rpc := hr3
      have hb2 : s.rpc ≤ 6 := hr6
      exact absurd ⟨by omega, hb2⟩ hnR
    · intro hr4 hr6
      have ha2 : 4 ≤ s.rpc := hr4
      have hb2 : s.rpc ≤ 6 := hr6
      exact absurd ⟨by omega, hb2⟩ hnR
    · intro hr5 hr6
      have ha2 : 5 ≤ s.rpc := hr5
      have hb2 : s.rpc ≤ 6 := hr6
      exact absurd ⟨by omega, hb2⟩ hnR
    · intro hr6
      have ha2 : s.rpc = 6 := hr6
      exact absurd ⟨by omega, by omega⟩ hnR
  | wWrite5 _ hb =>
    have hnR : ¬(1 ≤ s.rpc ∧ s.rpc ≤ 6) :=
      h3.resolve_left (fun h => h ⟨by omega, by omega⟩)
    have hheld : s.writerHeld = true := h1.mpr ⟨by omega, by omega⟩
    refine ⟨by simp [hheld], by simpa using h2, Or.inr hnR, ?_, ?_, ?_, ?_, ?_, ?_, h10⟩
    · show { s.store with Error := n.Error } = writerView o n 6
      rw [h4, hb]
      simp [writerView]
    · intro hr2 hr6
      have ha2 : 2 ≤ s.rpc := hr2
      have hb2 : s.rpc ≤ 6 := hr6
      exact absurd ⟨by omega, hb2⟩ hnR
    · intro hr3 hr6
      have ha2 : 3 ≤ s.rpc := hr3
      have hb2 : s.rpc ≤ 6 := hr6
      exact absurd ⟨by omega, hb2⟩ hnR
    · intro hr4 hr6
      have ha2 : 4 ≤ s.rpc := hr4
      have hb2 : s.rpc ≤ 6 := hr6
      exact absurd ⟨by omega, hb2⟩ hnR
    · intro hr5 hr6
      have ha2 : 5 ≤ s.rpc := hr5
      have hb2 : s.rpc ≤ 6 := hr6
      exact absurd ⟨by omega, hb2⟩ hnR
    · intro hr6
      have ha2 : s.rpc = 6 := hr6
      exact absurd ⟨by omega, by omega⟩ hnR
  | wRelease _ hb =>
    refine ⟨by simp, by simpa using h2, Or.inl (by simp), ?_, h5, h6, h7, h8, h9, h10⟩
    show s.store = writerView o n 7
    rw [h4, hb]
    simp [writerView]
  | rAcquire _ ha1 ha2 =>
    have hnW : ¬(1 ≤ s.wpc ∧ s.wpc ≤ 6) := by
      intro hW
      have hc := h1.mpr hW
      rw [ha2] at hc
      exact Bool.noConfusion hc
    have hr0 : s.readers = 0 := by
      rw [h2, ha1]
      simp
    refine ⟨h1, ?_, Or.inl hnW, h4, ?_, ?_, ?_, ?_, ?_, ?_⟩
    · show s.readers + 1 = if 1 ≤ 1 ∧ 1 ≤ 6 then 1 else 0
      simp [hr0]
    · intro hr2 _
      simp at hr2
    · intro hr3 _
      simp at hr3
    · intro hr4 _
      simp at hr4
    · intro hr5 _
      simp at hr5
    · intro hr6
      simp at hr6
    · intro hr7
      simp at hr7
  | rRead1 _ hb =>
    have hR : 1 ≤ s.rpc ∧ s.rpc ≤ 6 := by omega
    have hnW : ¬(1 ≤ s.wpc ∧ s.wpc ≤ 6) := h3.resolve_right (fun h => h hR)
    refine ⟨h1, ?_, Or.inl hnW, h4, ?_, ?_, ?_, ?_, ?_, ?_⟩
    · show s.readers = if 1 ≤ 2 ∧ 2 ≤ 6 then 1 else 0
      rw [h2, hb]
      norm_num
    · intro _ _
      rfl
    · intro hr3 _
      simp at hr3
    · intro hr4 _
      simp at hr4
    · intro hr5 _
      simp at hr5
    · intro hr6
      simp at hr6
    · intro hr7
      simp at hr7
  | rRead2 _ hb =>
    have hR : 1 ≤ s.rpc ∧ s.rpc ≤ 6 := by omega
    have hnW : ¬(1 ≤ s.wpc ∧ s.wpc ≤ 6) := h3.resolve_right (fun h => h hR)
    refine ⟨h1, ?_, Or.inl hnW, h4, ?_, ?_, ?_, ?_, ?_, ?_⟩
    · show s.readers = if 1 ≤ 3 ∧ 3 ≤ 6 then 1 else 0
      rw [h2, hb]
      norm_num
    · intro _ _
      exact h5 (by omega) (by omega)
    · intro _ _
      rfl
    · intro hr4 _
      simp at hr4
    · intro hr5 _
      simp at hr5
    · intro hr6
      simp at hr6
    · intro hr7
      simp at hr7
  | rRead3 _ hb =>
    have hR : 1 ≤ s.rpc ∧ s.rpc ≤ 6 := by omega
    have hnW : ¬(1 ≤ s.wpc ∧ s.wpc ≤ 6) := h3.resolve_right (fun h => h hR)
    refine ⟨h1, ?_, Or.inl hnW, h4, ?_, ?_, ?_, ?_, ?_, ?_⟩
    · show s.readers = if 1 ≤ 4 ∧ 4 ≤ 6 then 1 else 0
      rw [h2, hb]
      norm_num
    · intro _ _
      exact h5 (by omega) (by omega)
    · intro _ _
      exact h6 (by omega) (by omega)
    · intro _ _
      rfl
    · intro hr5 _
      simp at hr5
    · intro hr6
      simp at hr6
    · intro hr7
      simp at hr7
  | rRead4 _ hb =>
    have hR : 1 ≤ s.rpc ∧ s.rpc ≤ 6 := by omega
    have hnW : ¬(1 ≤ s.wpc ∧ s.wpc ≤ 6) := h3.resolve_right (fun h => h hR)
    refine ⟨h1, ?_, Or.inl hnW, h4, ?_, ?_, ?_, ?_, ?_, ?_⟩
    · show s.readers = if 1 ≤ 5 ∧ 5 ≤ 6 then 1 else 0
      rw [h2, hb]
      norm_num
    · intro _ _
      exact h5 (by omega) (by omega)
    · intro _ _
      exact h6 (by omega) (by omega)
    · intro _ _
      exact h7 (by omega) (by omega)
    · intro _ _
      rfl
    · intro hr6
      simp at hr6
    · intro hr7
      simp at hr7
  | rRead5 _ hb =>
    have hR : 1 ≤ s.rpc ∧ s.rpc ≤ 6 := by omega
    have hnW : ¬(1 ≤ s.wpc ∧ s.wpc ≤ 6) := h3.resolve_right (fun h => h hR)
    refine ⟨h1, ?_, Or.inl hnW, h4, ?_, ?_, ?_, ?_, ?_, ?_⟩
    · show s.readers = if 1 ≤ 6 ∧ 6 ≤ 6 then 1 else 0
      rw [h2, hb]
      norm_num
    · intro _ _
      exact h5 (by omega) (by omega)
    · intro _ _
      exact h6 (by omega) (by omega)
    · intro _ _
      exact h7 (by omega) (by omega)
    · intro _ _
      exact h8 (by omega) (by omega)
    · intro _
      rfl
    · intro hr7
      simp at hr7
  | rRelease _ hb =>
    have hR : 1 ≤ s.rpc ∧ s.rpc ≤ 6 := by omega
    have hnW : ¬(1 ≤ s.wpc ∧ s.wpc ≤ 6) := h3.resolve_right (fun h => h hR)
    refine ⟨h1, ?_, Or.inr (by simp), h4, ?_, ?_, ?_, ?_, ?_, ?_⟩
    · show s.readers - 1 = if 1 ≤ 7 ∧ 7 ≤ 6 then 1 else 0
      rw [h2, hb]
      simp
    · intro _ hc
      simp at hc
    · intro _ hc
      simp at hc
    · intro _ hc
      simp at hc
    · intro _ hc
      simp at hc
    · intro hc
      simp at hc
    · intro _
      have hobs : s.obs = s.store :=
        healthStatus_ext _ _ (h5 (by omega) (by omega)) (h6 (by omega) (by omega))
          (h7 (by omega) (by omega)) (h8 (by omega) (by omega)) (h9 hb)
      have hcase : s.wpc = 0 ∨ 7 ≤ s.wpc := by omega
      rw [hobs, h4]
      rcases hcase with h0 | h7w
      · left
        rw [h0]
        simp [writerView]
      · right
        unfold writerView
        rw [if_neg (by omega), if_neg (by omega), if_neg (by omega),
          if_neg (by omega), if_neg (by omega)]

/-- Every reachable state satisfies the invariant. -/
theorem storeInv_reachable (o n : HealthStatus) (s : StoreState)
    (h : StoreReachable o n s) : StoreInv o n s := by
  induction h with
  | refl => exact storeInv_init o n
  | tail _ hstep ih =>
    obtain ⟨a, ha⟩ := hstep
    exact storeInv_step o n a _ _ ha ih

/-- Reader steps never change the store. -/
theorem reader_step_preserves_store (n : HealthStatus) (s s' : StoreState)
    (h : StoreStep n .reader s s') : s'.store = s.store := by
  cases h <;> rfl

/-! ### Claim theorems -/

/-- Claim C1: for every finite job set (port range) and every worker
count `W ≥ 1`, the worker-pool scan attempts every job exactly once
(each port is dialled by exactly one worker exactly one time), publishes
only successful outcomes to the results collection, and the returned
result set has size at most the number of jobs. Quantified over every
channel delivery `asg` and every interleaving `res` of the published
results. -/
theorem scanPorts_attempts_once_results_bounded (net : Int → Bool) (s e : Int)
    (W : Nat) (asg : List Nat) (res : List ScanResult) (hW : 1 ≤ W)
    (hasg : ValidAssignment W (portRange s e) asg)
    (hres : res.Perm (allResults net (portRange s e) asg W)) :
    (∀ p ∈ portRange s e, (allAttempts (portRange s e) asg W).count p = 1)
    ∧ (∀ r ∈ res, r.Open = true)
    ∧ res.length ≤ (portRange s e).length := by
  obtain ⟨hlen, hlt⟩ := hasg
  have hperm := allAttempts_perm W (portRange s e) asg hlen hlt
  have h2 := hres.trans (allResults_perm_filter net (portRange s e) asg W hlen hlt)
  refine ⟨?_, ?_, ?_⟩
  · intro p hp
    rw [hperm.count_eq]
    exact List.count_eq_one_of_mem (portRange_nodup s e) hp
  · intro r hr
    have hmem := h2.mem_iff.mp hr
    simpa using List.of_mem_filter hmem
  · rw [h2.length_eq]
    calc (((portRange s e).map (scanPort net)).filter (fun r => r.Open)).length
        ≤ ((portRange s e).map (scanPort net)).length := List.length_filter_le _ _
      _ = (portRange s e).length := List.length_map _ _

/-- Witness for C1: scanning ports 7–9 with two workers, port 9 open. -/
theorem scanPorts_attempts_once_results_bounded_witness :
    (∀ p ∈ portRange 7 9, (allAttempts (portRange 7 9) [0, 1, 0] 2).count p = 1)
    ∧ (∀ r ∈ [ScanResult.mk 9 true ""], r.Open = true)
    ∧ [ScanResult.mk 9 true ""].length ≤ (portRange 7 9).length :=
  scanPorts_attempts_once_results_bounded (fun p => p == 9) 7 9 2 [0, 1, 0]
    [ScanResult.mk 9 true ""] (by decide) ⟨by decide, by decide⟩ (by decide)

/-- Claim C6: the scan is a total function of its inputs that accounts
for the whole range (the attempts are exactly the job list), an empty
job set (start port greater than end port) yields an empty result set,
and a worker pool larger than the job count is legal — workers handed
no jobs publish nothing. -/
theorem scanPorts_blocking_full_range_empty_ok (net : Int → Bool) (s e : Int)
    (W : Nat) (asg : List Nat) (res : List ScanResult) (hW : 1 ≤ W)
    (hasg : ValidAssignment W (portRange s e) asg)
    (hres : res.Perm (allResults net (portRange s e) asg W)) :
    (allAttempts (portRange s e) asg W).Perm (portRange s e)
    ∧ (e < s → portRange s e = [] ∧ res = [])
    ∧ (∀ w, workerJobs (portRange s e) asg w = [] →
        workerResults net (portRange s e) asg w = []) := by
  obtain ⟨hlen, hlt⟩ := hasg
  have hperm := allAttempts_perm W (portRange s e) asg hlen hlt
  refine ⟨hperm, ?_, ?_⟩
  · intro hlt2
    have hempty : portRange s e = [] := by
      unfold portRange
      have : (e + 1 - s).toNat = 0 := by omega
      rw [this]
      rfl
    refine ⟨hempty, ?_⟩
    have h2 := hres.trans (allResults_perm_filter net (portRange s e) asg W hlen hlt)
    rw [hempty] at h2
    simpa using h2.eq_nil
  · intro w hw
    unfold workerResults
    rw [hw]
    rfl

/-- Witness for C6: the empty range 9–7 with three workers. -/
theorem scanPorts_blocking_full_range_empty_ok_witness :
    (allAttempts (portRange 9 7) [] 3).Perm (portRange 9 7)
    ∧ ((7 : Int) < 9 → portRange 9 7 = [] ∧ ([] : List ScanResult) = [])
    ∧ (∀ w, workerJobs (portRange 9 7) [] w = [] →
        workerResults (fun _ => false) (portRange 9 7) [] w = []) :=
  scanPorts_blocking_full_range_empty_ok (fun _ => false) 9 7 3 [] []
    (by decide) ⟨by decide, by decide⟩ (by decide)

/-- Claim C2: `printStatus` renders exactly one line per configured
target, in configuration order (the `i`-th line renders the `i`-th
endpoint), whatever the contents of the status map; a target never yet
probed renders as the distinct `pending` state, which can never be
conflated with a probed-and-failed or probed-and-healthy report. -/
theorem printStatus_one_line_per_target (eps : List Endpoint) (sts : StatusMap) :
    (printStatus eps sts).length = eps.length
    ∧ (∀ i : Nat, (printStatus eps sts)[i]? = (eps[i]?).map (renderLine sts))
    ∧ (∀ ep, renderLine sts ep = StatusLine.pending ep.Name ↔ sts ep.Name = none)
    ∧ (∀ ep, (sts ep.Name = none ∧ renderLine sts ep = StatusLine.pending ep.Name)
        ∨ ∃ st, sts ep.Name = some st ∧
            renderLine sts ep = StatusLine.report ep.Name st.Healthy st.Latency st.Error)
    ∧ (∀ nm nm2 h l er, StatusLine.pending nm ≠ StatusLine.report nm2 h l er)
    ∧ (∀ nm l er l2 er2, StatusLine.report nm true l er ≠ StatusLine.report nm false l2 er2) := by
  refine ⟨by simp [printStatus], ?_, ?_, ?_, ?_, ?_⟩
  · intro i
    simp [printStatus]
  · intro ep
    unfold renderLine
    cases h : sts ep.Name <;> simp
  · intro ep
    unfold renderLine
    cases h : sts ep.Name with
    | none => exact Or.inl ⟨rfl, rfl⟩
    | some st => exact Or.inr ⟨st, rfl, rfl⟩
  · intro nm nm2 h l er hc
    cases hc
  · intro nm l er l2 er2 hc
    cases hc

/-- Claim C3: on a received response, the recorded outcome is healthy
iff the observed status code equals the expected status, and on a
mismatch the stored failure detail cites both the observed and the
expected code. -/
theorem checkEndpoint_healthy_iff_expected (sts : StatusMap) (ep : Endpoint)
    (code lat now : Int) :
    ∃ st, (checkEndpoint sts ep (.response code) lat now) ep.Name = some st
      ∧ (st.Healthy = true ↔ code = ep.ExpectedStatus)
      ∧ st.Error = (if code = ep.ExpectedStatus then ""
          else "status " ++ toString code ++ " (expected " ++ toString ep.ExpectedStatus ++ ")")
      ∧ st.Latency = lat := by
  by_cases h : code = ep.ExpectedStatus
  · have hb : (code == ep.ExpectedStatus) = true := beq_iff_eq.mpr h
    refine ⟨HealthStatus.mk ep true lat now "", ?_, by simp [h], by simp [h], rfl⟩
    simp [checkEndpoint, updateStatus, hb]
  · have hb : (code == ep.ExpectedStatus) = false := by
      simpa using h
    refine ⟨HealthStatus.mk ep false lat now
        ("status " ++ toString code ++ " (expected " ++ toString ep.ExpectedStatus ++ ")"),
      ?_, by simp [h], by simp [h], rfl⟩
    simp [checkEndpoint, updateStatus, hb]

/-- Claim C4, counterexample: `loadEndpoints` accepts a configuration
with duplicate identities, empty addresses and negative
intervals/timeouts without reporting any error — no validation of
interval, timeout, address or probe kind happens at startup. -/
theorem loadEndpoints_accepts_invalid_entries :
    (loadEndpoints (.ok "cfg")
        (fun _ => .ok [Endpoint.mk "A" "" (-1) (-1) 200, Endpoint.mk "A" "" (-1) (-1) 200])
      = .ok [Endpoint.mk "A" "" (-1) (-1) 200, Endpoint.mk "A" "" (-1) (-1) 200])
    ∧ ¬∃ e, loadEndpoints (.ok "cfg")
        (fun _ => .ok [Endpoint.mk "A" "" (-1) (-1) 200, Endpoint.mk "A" "" (-1) (-1) 200])
      = .error e := by
  constructor
  · rfl
  · rintro ⟨e, he⟩
    cases he

/-- Claim C4, amended: there is no semantic validation of target
descriptors; `loadEndpoints` fails exactly when the file read or the
JSON parse fails (in which case `main` aborts before starting anything),
and otherwise returns every parsed entry with only zero-valued fields
defaulted. -/
theorem loadEndpoints_error_iff_read_or_parse (parse : String → Except String (List Endpoint))
    (data e : String) :
    loadEndpoints (.error e) parse = .error e
    ∧ (∀ eps, parse data = .ok eps →
        loadEndpoints (.ok data) parse = .ok (eps.map applyDefaults))
    ∧ (∀ e2, parse data = .error e2 → loadEndpoints (.ok data) parse = .error e2) := by
  refine ⟨rfl, ?_, ?_⟩
  · intro eps hp
    simp [loadEndpoints, hp]
  · intro e2 hp
    simp [loadEndpoints, hp]

/-- Witness for the amended C4. -/
theorem loadEndpoints_error_iff_read_or_parse_witness :
    loadEndpoints (.error "no such file") (fun _ => .ok []) = .error "no such file"
    ∧ loadEndpoints (.ok "[]") (fun _ => .ok ([] : List Endpoint)) = .ok []
    ∧ loadEndpoints (.ok "not json") (fun _ => .error "bad json") = .error "bad json" :=
  ⟨(loadEndpoints_error_iff_read_or_parse (fun _ => .ok []) "x" "no such file").1,
   (loadEndpoints_error_iff_read_or_parse (fun _ => .ok []) "[]" "e").2.1 [] rfl,
   (loadEndpoints_error_iff_read_or_parse (fun _ => .error "bad json") "not json" "e").2.2
     "bad json" rfl⟩

/-- Claim C9: `loadEndpoints` replaces exactly the zero-valued fields
with defaults (interval 5s, timeout 3s, expected status 200, in
nanoseconds where applicable), leaves every non-zero value — including
negative durations — unchanged, and errors iff the read or the parse
errors. -/
theorem loadEndpoints_defaults_exact (rd : Except String String)
    (parse : String → Except String (List Endpoint)) (ep : Endpoint) :
    ((∃ e, loadEndpoints rd parse = .error e) ↔
      ((∃ e, rd = .error e) ∨ (∃ d e, rd = .ok d ∧ parse d = .error e)))
    ∧ (∀ d eps, rd = .ok d → parse d = .ok eps →
        loadEndpoints rd parse = .ok (eps.map applyDefaults))
    ∧ (ep.Interval = 0 → (applyDefaults ep).Interval = 5000000000)
    ∧ (ep.Interval ≠ 0 → (applyDefaults ep).Interval = ep.Interval)
    ∧ (ep.Timeout = 0 → (applyDefaults ep).Timeout = 3000000000)
    ∧ (ep.Timeout ≠ 0 → (applyDefaults ep).Timeout = ep.Timeout)
    ∧ (ep.ExpectedStatus = 0 → (applyDefaults ep).ExpectedStatus = 200)
    ∧ (ep.ExpectedStatus ≠ 0 → (applyDefaults ep).ExpectedStatus = ep.ExpectedStatus)
    ∧ (applyDefaults ep).Name = ep.Name ∧ (applyDefaults ep).URL = ep.URL := by
  refine ⟨?_, ?_, ?_, ?_, ?_, ?_, ?_, ?_, ?_, ?_⟩
  · cases rd with
    | error e => simp [loadEndpoints]
    | ok data =>
      cases hp : parse data with
      | error e2 => simp [loadEndpoints, hp]
      | ok eps => simp [loadEndpoints, hp]
  · intro d eps hrd hp
    subst hrd
    simp [loadEndpoints, hp]
  · intro h
    simp [applyDefaults, h]
  · intro h
    simp [applyDefaults, h]
  · intro h
    simp [applyDefaults, h]
  · intro h
    simp [applyDefaults, h]
  · intro h
    simp [applyDefaults, h]
  · intro h
    simp [applyDefaults, h]
  · rfl
  · rfl

/-- Witness for C9: an entry with zero timeout and expected status but a
negative interval keeps the negative interval and gets the defaults for
the zero fields. -/
theorem loadEndpoints_defaults_exact_witness :
    (applyDefaults (Endpoint.mk "A" "u" (-7) 0 0)).Interval = -7
    ∧ (applyDefaults (Endpoint.mk "A" "u" (-7) 0 0)).Timeout = 3000000000
    ∧ (applyDefaults (Endpoint.mk "A" "u" (-7) 0 0)).ExpectedStatus = 200
    ∧ loadEndpoints (.ok "cfg") (fun _ => .ok [Endpoint.mk "A" "u" (-7) 0 0])
        = .ok [applyDefaults (Endpoint.mk "A" "u" (-7) 0 0)] :=
  ⟨(loadEndpoints_defaults_exact (.ok "cfg") (fun _ => .ok []) (Endpoint.mk "A" "u" (-7) 0 0)).2.2.2.1
     (by decide),
   (loadEndpoints_defaults_exact (.ok "cfg") (fun _ => .ok []) (Endpoint.mk "A" "u" (-7) 0 0)).2.2.2.2.1
     (by decide),
   (loadEndpoints_defaults_exact (.ok "cfg") (fun _ => .ok []) (Endpoint.mk "A" "u" (-7) 0 0)).2.2.2.2.2.2.1
     (by decide),
   (loadEndpoints_defaults_exact (.ok "cfg")
      (fun _ => .ok [Endpoint.mk "A" "u" (-7) 0 0]) (Endpoint.mk "A" "u" (-7) 0 0)).2.1
     "cfg" [Endpoint.mk "A" "u" (-7) 0 0] rfl rfl⟩

theorem monitorRun_stops_iff (ep : Endpoint) :
    ∀ (evs : List SchedEvent) (sts : StatusMap),
      ((monitorRun ep sts evs).2 = true ↔ SchedEvent.cancel ∈ evs) := by
  intro evs
  induction evs with
  | nil =>
    intro sts
    simp [monitorRun]
  | cons e rest ih =>
    intro sts
    cases e with
    | cancel => simp [monitorRun]
    | tick pr lat now =>
      rw [show monitorRun ep sts (SchedEvent.tick pr lat now :: rest)
            = monitorRun ep (checkEndpoint sts ep pr lat now) rest from rfl]
      rw [ih]
      constructor
      · intro h
        exact List.mem_cons_of_mem _ h
      · intro h
        rcases List.mem_cons.mp h with h1 | h2
        · exact absurd h1 (by simp)
        · exact h2

theorem monitorRun_no_cancel (ep : Endpoint) :
    ∀ (evs : List SchedEvent) (sts : StatusMap), SchedEvent.cancel ∉ evs →
      (monitorRun ep sts evs).1 = evs.foldl (schedStep ep) sts := by
  intro evs
  induction evs with
  | nil =>
    intro sts _
    rfl
  | cons e rest ih =>
    intro sts hnc
    cases e with
    | cancel => exact absurd (List.mem_cons_self _ _) hnc
    | tick pr lat now =>
      have hnc' : SchedEvent.cancel ∉ rest := fun h => hnc (List.mem_cons_of_mem _ h)
      rw [show monitorRun ep sts (SchedEvent.tick pr lat now :: rest)
            = monitorRun ep (checkEndpoint sts ep pr lat now) rest from rfl]
      rw [ih _ hnc']
      rfl

/-- Claim C5: a probe failure never terminates the scheduler loop — the
loop returns exactly when a cancellation is observed; with no
cancellation, every tick (failures included) is processed and folded
into the store; a failing tick continues with the remaining events; and
a transport failure is recorded as an unhealthy outcome carrying the
error text. -/
theorem scheduler_survives_probe_failure (ep : Endpoint) (sts : StatusMap)
    (evs : List SchedEvent) (hnc : SchedEvent.cancel ∉ evs) :
    ((monitorRun ep sts evs).2 = true ↔ SchedEvent.cancel ∈ evs)
    ∧ (monitorRun ep sts evs).1 = evs.foldl (schedStep ep) sts
    ∧ (∀ msg lat now rest,
        monitorRun ep sts (SchedEvent.tick (ProbeResult.transportError msg) lat now :: rest)
          = monitorRun ep (checkEndpoint sts ep (ProbeResult.transportError msg) lat now) rest)
    ∧ (∀ msg lat now,
        (checkEndpoint sts ep (ProbeResult.transportError msg) lat now) ep.Name
          = some (HealthStatus.mk ep false lat now msg)) := by
  refine ⟨monitorRun_stops_iff ep evs sts, monitorRun_no_cancel ep evs sts hnc, ?_, ?_⟩
  · intro msg lat now rest
    rfl
  · intro msg lat now
    simp [checkEndpoint, updateStatus]

/-- Witness for C5: two failing ticks are both processed, the loop has
not returned, and the failure is recorded. -/
theorem scheduler_survives_probe_failure_witness :
    ((monitorRun (Endpoint.mk "A" "u" 5 3 200) (fun _ => none)
        [SchedEvent.tick (ProbeResult.transportError "connection refused") 7 100,
         SchedEvent.tick (ProbeResult.transportError "timeout") 9 200]).2 = true
      ↔ SchedEvent.cancel ∈
        [SchedEvent.tick (ProbeResult.transportError "connection refused") 7 100,
         SchedEvent.tick (ProbeResult.transportError "timeout") 9 200])
    ∧ (monitorRun (Endpoint.mk "A" "u" 5 3 200) (fun _ => none)
        [SchedEvent.tick (ProbeResult.transportError "connection refused") 7 100,
         SchedEvent.tick (ProbeResult.transportError "timeout") 9 200]).1
      = [SchedEvent.tick (ProbeResult.transportError "connection refused") 7 100,
         SchedEvent.tick (ProbeResult.transportError "timeout") 9 200].foldl
          (schedStep (Endpoint.mk "A" "u" 5 3 200)) (fun _ => none)
    ∧ (∀ msg lat now rest,
        monitorRun (Endpoint.mk "A" "u" 5 3 200) (fun _ => none)
            (SchedEvent.tick (ProbeResult.transportError msg) lat now :: rest)
          = monitorRun (Endpoint.mk "A" "u" 5 3 200)
              (checkEndpoint (fun _ => none) (Endpoint.mk "A" "u" 5 3 200)
                (ProbeResult.transportError msg) lat now) rest)
    ∧ (∀ msg lat now,
        (checkEndpoint (fun _ => none) (Endpoint.mk "A" "u" 5 3 200)
            (ProbeResult.transportError msg) lat now) "A"
          = some (HealthStatus.mk (Endpoint.mk "A" "u" 5 3 200) false lat now msg)) :=
  scheduler_survives_probe_failure (Endpoint.mk "A" "u" 5 3 200) (fun _ => none)
    [SchedEvent.tick (ProbeResult.transportError "connection refused") 7 100,
     SchedEvent.tick (ProbeResult.transportError "timeout") 9 200] (by decide)

theorem ping_latency_cases (a : PingAttempt) :
    ((ping a).2 = none → (ping a).1 = a.elapsed)
    ∧ ((ping a).2.isSome = true → (ping a).1 = 0) := by
  obtain ⟨le, me, de, we, re, el, pe, rt⟩ := a
  rcases le with _ | e1 <;> rcases me with _ | e2 <;> rcases de with _ | e3 <;>
    rcases we with _ | e4 <;> rcases re with _ | e5 <;> rcases pe with _ | e6 <;>
    by_cases ht : rt = 0 <;> simp [ping, ht]

/-- Claim C7, counterexample: an ICMP ping whose `ReadFrom` fails after
42 time units of waiting returns a zero duration, not the elapsed
wall-clock time — latency is not recorded on ICMP failure. -/
theorem ping_zero_latency_on_failure :
    ping (PingAttempt.mk none none none none (some "i/o timeout") 42 none 0)
      = (0, some ("read error: " ++ "i/o timeout"))
    ∧ (PingAttempt.mk none none none none (some "i/o timeout") 42 none 0).elapsed ≠ 0 := by
  constructor
  · rfl
  · decide

/-- Claim C7, amended: the HTTP probe records the measured wall-clock
latency for every attempt that reaches the send stage — both on
transport error and on any response — and records zero latency when
request construction fails before sending; the ICMP ping returns the
measured elapsed time only on full success and returns zero with an
error on every failure path. -/
theorem latency_recorded_http_not_icmp (sts : StatusMap) (ep : Endpoint)
    (msg : String) (code lat now : Int) (a : PingAttempt) :
    ((checkEndpoint sts ep (ProbeResult.transportError msg) lat now) ep.Name
        = some (HealthStatus.mk ep false lat now msg))
    ∧ (∃ st, (checkEndpoint sts ep (ProbeResult.response code) lat now) ep.Name
        = some st ∧ st.Latency = lat)
    ∧ ((checkEndpoint sts ep (ProbeResult.reqError msg) lat now) ep.Name
        = some (HealthStatus.mk ep false 0 now msg))
    ∧ ((ping a).2 = none → (ping a).1 = a.elapsed)
    ∧ ((ping a).2.isSome = true → (ping a).1 = 0) := by
  refine ⟨?_, ?_, ?_, (ping_latency_cases a).1, (ping_latency_cases a).2⟩
  · simp [checkEndpoint, updateStatus]
  · by_cases h : code = ep.ExpectedStatus
    · have hb : (code == ep.ExpectedStatus) = true := beq_iff_eq.mpr h
      exact ⟨HealthStatus.mk ep true lat now "",
        by simp [checkEndpoint, updateStatus, hb], rfl⟩
    · have hb : (code == ep.ExpectedStatus) = false := by simpa using h
      exact ⟨HealthStatus.mk ep false lat now
          ("status " ++ toString code ++ " (expected " ++ toString ep.ExpectedStatus ++ ")"),
        by simp [checkEndpoint, updateStatus, hb], rfl⟩
  · simp [checkEndpoint, updateStatus]

/-- Witness for the amended C7: a fully successful ping reports its
elapsed time, a failing one reports zero. -/
theorem latency_recorded_http_not_icmp_witness :
    ((ping (PingAttempt.mk none none none none none 7 none 0)).2 = none →
      (ping (PingAttempt.mk none none none none none 7 none 0)).1
        = (PingAttempt.mk none none none none none 7 none 0).elapsed)
    ∧ ((ping (PingAttempt.mk none none none none none 7 none 0)).2.isSome = true →
      (ping (PingAttempt.mk none none none none none 7 none 0)).1 = 0)
    ∧ (checkEndpoint (fun _ => none) (Endpoint.mk "A" "u" 5 3 200)
        (ProbeResult.transportError "refused") 11 100) "A"
      = some (HealthStatus.mk (Endpoint.mk "A" "u" 5 3 200) false 11 100 "refused") :=
  ⟨(latency_recorded_http_not_icmp (fun _ => none) (Endpoint.mk "A" "u" 5 3 200)
      "refused" 200 11 100 (PingAttempt.mk none none none none none 7 none 0)).2.2.2.1,
   (latency_recorded_http_not_icmp (fun _ => none) (Endpoint.mk "A" "u" 5 3 200)
      "refused" 200 11 100 (PingAttempt.mk none none none none none 7 none 0)).2.2.2.2,
   (latency_recorded_http_not_icmp (fun _ => none) (Endpoint.mk "A" "u" 5 3 200)
      "refused" 200 11 100 (PingAttempt.mk none none none none none 7 none 0)).1⟩

/-- Claim C8: under the RWMutex discipline, a reader that has completed
its snapshot of an entry has observed either the complete previous
outcome or the complete new outcome — never a torn mixture; a writer
that has finished has replaced the entry wholesale with the complete new
outcome; and reader steps are the only steps that never mutate the
store, `updateStatus` being the store's only mutation. -/
theorem resultStore_put_atomic_no_torn_reads (o n : HealthStatus) (s : StoreState)
    (hreach : StoreReachable o n s) :
    (s.rpc = 7 → s.obs = o ∨ s.obs = n)
    ∧ (s.wpc = 7 → s.store = n)
    ∧ (∀ s1 s2, StoreStep n Agent.reader s1 s2 → s2.store = s1.store) := by
  have hinv := storeInv_reachable o n s hreach
  obtain ⟨_, _, _, h4, _, _, _, _, _, h10⟩ := hinv
  refine ⟨h10, ?_, fun s1 s2 h => reader_step_preserves_store n s1 s2 h⟩
  intro h7
  rw [h4, h7]
  unfold writerView
  rw [if_neg (by omega), if_neg (by omega), if_neg (by omega),
    if_neg (by omega), if_neg (by omega)]

/-- Witness for C8: the reader runs to completion before the writer
starts and observes exactly the old outcome. -/
theorem resultStore_put_atomic_no_torn_reads_witness :
    (StoreState.mk (HealthStatus.mk (Endpoint.mk "G" "u" 5 3 200) true 10 100 "")
        0 false 0 7 (HealthStatus.mk (Endpoint.mk "G" "u" 5 3 200) true 10 100 "")).obs
      = HealthStatus.mk (Endpoint.mk "G" "u" 5 3 200) true 10 100 ""
    ∨ (StoreState.mk (HealthStatus.mk (Endpoint.mk "G" "u" 5 3 200) true 10 100 "")
        0 false 0 7 (HealthStatus.mk (Endpoint.mk "G" "u" 5 3 200) true 10 100 "")).obs
      = HealthStatus.mk (Endpoint.mk "G" "u" 5 3 200) false 20 200 "timeout" := by
  refine (resultStore_put_atomic_no_torn_reads
    (HealthStatus.mk (Endpoint.mk "G" "u" 5 3 200) true 10 100 "")
    (HealthStatus.mk (Endpoint.mk "G" "u" 5 3 200) false 20 200 "timeout") _ ?_).1 rfl
  refine Relation.ReflTransGen.head ⟨Agent.reader, StoreStep.rAcquire _ rfl rfl⟩ ?_
  refine Relation.ReflTransGen.head ⟨Agent.reader, StoreStep.rRead1 _ rfl⟩ ?_
  refine Relation.ReflTransGen.head ⟨Agent.reader, StoreStep.rRead2 _ rfl⟩ ?_
  refine Relation.ReflTransGen.head ⟨Agent.reader, StoreStep.rRead3 _ rfl⟩ ?_
  refine Relation.ReflTransGen.head ⟨Agent.reader, StoreStep.rRead4 _ rfl⟩ ?_
  refine Relation.ReflTransGen.head ⟨Agent.reader, StoreStep.rRead5 _ rfl⟩ ?_
  refine Relation.ReflTransGen.head ⟨Agent.reader, StoreStep.rRelease _ rfl⟩ ?_
  exact Relation.ReflTransGen.refl

/-- Claim C10: every HTTP attempt runs under both the per-endpoint
context deadline and the shared client's fixed 10-second timeout, so the
effective per-attempt bound is their minimum — in particular 10 seconds
whenever the configured timeout exceeds 10 seconds. -/
theorem http_attempt_bounded_by_min (ifn : String) (ep : Endpoint) (d : Int) :
    (checkEndpointCompletes ifn ep d = true ↔ d ≤ min ep.Timeout 10000000000)
    ∧ (createClient ifn).Timeout = 10000000000
    ∧ (10000000000 < ep.Timeout →
        (checkEndpointCompletes ifn ep d = true ↔ d ≤ 10000000000)) := by
  refine ⟨?_, rfl, ?_⟩
  · simp only [checkEndpointCompletes, requestCompletes, createClient,
      Bool.and_eq_true, decide_eq_true_eq, le_min_iff]
  · intro hbig
    simp only [checkEndpointCompletes, requestCompletes, createClient,
      Bool.and_eq_true, decide_eq_true_eq]
    omega

/-- Witness for C2: one never-probed target renders exactly one line. -/
theorem printStatus_one_line_per_target_witness :
    (printStatus [Endpoint.mk "A" "u" 5 3 200] (fun _ => none)).length
      = [Endpoint.mk "A" "u" 5 3 200].length :=
  (printStatus_one_line_per_target [Endpoint.mk "A" "u" 5 3 200] (fun _ => none)).1

/-- Witness for C3: a 404 against an expected 200 records an unhealthy
outcome citing both codes. -/
theorem checkEndpoint_healthy_iff_expected_witness :
    ∃ st, (checkEndpoint (fun _ => none) (Endpoint.mk "A" "u" 5 3 200)
        (ProbeResult.response 404) 9 100) "A" = some st
      ∧ (st.Healthy = true ↔ (404 : Int) = (Endpoint.mk "A" "u" 5 3 200).ExpectedStatus)
      ∧ st.Error = (if (404 : Int) = (Endpoint.mk "A" "u" 5 3 200).ExpectedStatus then ""
          else "status " ++ toString (404 : Int) ++ " (expected "
            ++ toString (Endpoint.mk "A" "u" 5 3 200).ExpectedStatus ++ ")")
      ∧ st.Latency = 9 :=
  checkEndpoint_healthy_iff_expected (fun _ => none) (Endpoint.mk "A" "u" 5 3 200) 404 9 100

/-- Witness for C10: a 20-second configured timeout is still clipped to
the client's 10 seconds. -/
theorem http_attempt_bounded_by_min_witness :
    checkEndpointCompletes "" (Endpoint.mk "A" "u" 5 20000000000 200) 10000000001 = true
      ↔ (10000000001 : Int) ≤ 10000000000 :=
  (http_attempt_bounded_by_min "" (Endpoint.mk "A" "u" 5 20000000000 200) 10000000001).2.2
    (by decide)

end NetProbe
